import Mathlib

/-!
Verification of the my-album server (`src/server.js`).

The file embeds, as pure Lean functions, the parts of the server the
specification speaks about: the RGB565 packing loops of `GET /cover-64x64`
(lines 124-140) and `GET /get-photo` (lines 278-294), the center-square
crop parameters (lines 267-270), the id validation, query limit and range
check of `GET /get-photo` (lines 240-262), the accent stripping of titles
and usernames (lines 297-298), and the `GET /id-playing` handler
(lines 156-177).  External collaborators (the sharp decode/resize pipeline,
the network fetch, the Supabase client, the JS built-in `normalize("NFD")`)
are modelled as function parameters; everything written in the repository
itself is translated directly.
-/

namespace MyAlbum

/-- RGB565 packing of the `/cover-64x64` handler, server.js lines 134-136:
`((b & 0b11111000) << 8) | ((r & 0b11111100) << 3) | (g >> 3)`.  Buffer
bytes are below 256, so the JS 32-bit bitwise operations are exact on ℕ. -/
def rgb565Cover (r g b : Nat) : Nat :=
  ((b &&& 0b11111000) <<< 8) ||| ((r &&& 0b11111100) <<< 3) ||| (g >>> 3)

/-- RGB565 packing of the `/get-photo` handler, server.js lines 288-290
(textually the same formula as in `/cover-64x64`). -/
def rgb565Photo (r g b : Nat) : Nat :=
  ((b &&& 0b11111000) <<< 8) ||| ((r &&& 0b11111100) <<< 3) ||| (g >>> 3)

/-- One row of the `/cover-64x64` pixel loop (server.js lines 126-138):
for `x` in `0..63`, read bytes at `idx = (y*64+x)*4`, `idx+1`, `idx+2`
of the raw RGBA buffer and pack them.  The byte at `idx+3` (alpha) is
never read. -/
def pixelRowCover (buf : Nat → Nat) (y : Nat) : List Nat :=
  (List.range 64).map fun x =>
    let idx := (y * 64 + x) * 4
    rgb565Cover (buf idx) (buf (idx + 1)) (buf (idx + 2))

/-- The `pixelData` grid of `/cover-64x64` (server.js lines 124-140):
64 rows, row-major, top to bottom. -/
def pixelDataCover (buf : Nat → Nat) : List (List Nat) :=
  (List.range 64).map fun y => pixelRowCover buf y

/-- One row of the `/get-photo` pixel loop (server.js lines 280-292). -/
def pixelRowPhoto (buf : Nat → Nat) (y : Nat) : List Nat :=
  (List.range 64).map fun x =>
    let idx := (y * 64 + x) * 4
    rgb565Photo (buf idx) (buf (idx + 1)) (buf (idx + 2))

/-- The `pixelData` grid of `/get-photo` (server.js lines 278-294). -/
def pixelDataPhoto (buf : Nat → Nat) : List (List Nat) :=
  (List.range 64).map fun y => pixelRowPhoto buf y

/-- Crop size of `/get-photo`, server.js line 268:
`const size = Math.min(metadata.width, metadata.height)`. -/
def cropSize (width height : Nat) : Nat :=
  min width height

/-- Crop left offset, server.js line 269:
`Math.floor((metadata.width - size) / 2)`; image dimensions are
non-negative integers and `size ≤ width`, so JS floor division is ℕ
division. -/
def cropLeft (width height : Nat) : Nat :=
  (width - cropSize width height) / 2

/-- Crop top offset, server.js line 270:
`Math.floor((metadata.height - size) / 2)`. -/
def cropTop (width height : Nat) : Nat :=
  (height - cropSize width height) / 2

/-- Values of the digits at the head of a character list; the scan of
JS `parseInt(_, 10)` stops at the first non-digit character. -/
def leadingDigitVals : List Char → List Nat
  | [] => []
  | c :: cs => if c.isDigit then (c.toNat - 48) :: leadingDigitVals cs else []

/-- Value denoted by a left-to-right list of decimal digit values. -/
def digitsVal (ds : List Nat) : Nat :=
  ds.foldl (fun a d => a * 10 + d) 0

/-- Model of JavaScript `parseInt(s, 10)` as used on server.js line 240:
skip leading spaces, accept an optional sign, then read the longest
leading run of decimal digits; `none` models `NaN` (no digits found). -/
def parseIntJS (s : String) : Option Int :=
  match s.data.dropWhile (fun c => c == ' ') with
  | [] => none
  | c :: rest =>
    if c == '-' then
      let ds := leadingDigitVals rest
      if ds.isEmpty then none else some (-(digitsVal ds : Int))
    else if c == '+' then
      let ds := leadingDigitVals rest
      if ds.isEmpty then none else some ((digitsVal ds : Int))
    else
      let ds := leadingDigitVals (c :: rest)
      if ds.isEmpty then none else some ((digitsVal ds : Int))

/-- Specification-side predicate (not from the code): the query parameter
is the decimal notation of a non-negative integer — non-empty and made of
digits only. -/
def isNonNegIntString (s : String) : Bool :=
  !s.data.isEmpty && s.data.all (fun c => c.isDigit)

/-- Accent stripping of server.js lines 297-298:
`s.normalize("NFD") followed by a global replace deleting the range U+0300..U+036F`.  The NFD
normalization is the JS built-in (external to this repository), passed in
as `nfd`; the replace deletes every code point in U+0300..U+036F. -/
def cleanAccents (nfd : String → String) (s : String) : String :=
  String.mk ((nfd s).data.filter
    (fun c => !(decide (0x300 ≤ c.toNat) && decide (c.toNat ≤ 0x36F))))

/-- Row of the Supabase `photos` table, fields selected on server.js
line 249 plus the `created_at` ordering key. -/
structure PhotoRecord where
  photo_url : String
  title : String
  username : String
  created_at : Nat
  deriving DecidableEq

/-- Insertion into a list kept in descending `created_at` order. -/
def insertDesc (p : PhotoRecord) : List PhotoRecord → List PhotoRecord
  | [] => [p]
  | q :: qs =>
    if q.created_at ≤ p.created_at then p :: q :: qs else q :: insertDesc p qs

/-- Insertion sort by `created_at` descending, modelling the database
`order('created_at', { ascending: false })`. -/
def sortDesc : List PhotoRecord → List PhotoRecord
  | [] => []
  | p :: ps => insertDesc p (sortDesc ps)

/-- The Supabase query of server.js lines 247-251: most recent first,
at most 5 rows.  The database itself is external; its documented
order/limit semantics are modelled here. -/
def queryPhotos (db : List PhotoRecord) : List PhotoRecord :=
  (sortDesc db).take 5

/-- Outcome of the `GET /get-photo` handler, tagged by HTTP status:
400 (invalid id), 500 (database, fetch or sharp failure), 404 (id out of
range), or the JSON payload of a 200 response. -/
inductive GetPhotoResp where
  | badRequest
  | serverError
  | notFound
  | ok (grid : List (List Nat)) (title : String) (username : String)
  deriving DecidableEq

/-- The record `photos[id]` read on server.js line 262; total via a
default, used only under the bounds check of line 258. -/
def photoAt (db : List PhotoRecord) (id : Nat) : PhotoRecord :=
  (queryPhotos db).getD id (PhotoRecord.mk "" "" "" 0)

/-- Body of `GET /get-photo` after id validation (server.js lines
245-308).  `fetchResize` stands for the external fetch plus sharp
extract/resize/ensureAlpha/raw pipeline: it yields the raw RGBA byte
buffer for a record's `photo_url`, or `none` when fetching or decoding
throws (caught as HTTP 500 on lines 309-312). -/
def getPhotoCore (nfd : String → String)
    (fetchResize : PhotoRecord → Option (Nat → Nat))
    (db : List PhotoRecord) (id : Nat) : GetPhotoResp :=
  if (queryPhotos db).length ≤ id then
    GetPhotoResp.notFound
  else
    match fetchResize (photoAt db id) with
    | none => GetPhotoResp.serverError
    | some buf =>
      GetPhotoResp.ok (pixelDataPhoto buf)
        (cleanAccents nfd (photoAt db id).title)
        (cleanAccents nfd (photoAt db id).username)

/-- Full `GET /get-photo` handler (server.js lines 237-313):
`const id = parseInt(req.query.id, 10); if (isNaN(id) || id < 0) 400`,
then (if the database query itself errored, 500, lines 253-256) the body
above.  JS `id >= photos.length` is the `length ≤ id` test of
`getPhotoCore`. -/
def getPhotoHandler (nfd : String → String)
    (fetchResize : PhotoRecord → Option (Nat → Nat))
    (dbError : Bool) (db : List PhotoRecord) (idStr : String) : GetPhotoResp :=
  match parseIntJS idStr with
  | none => GetPhotoResp.badRequest
  | some i =>
    if i < 0 then GetPhotoResp.badRequest
    else if dbError then GetPhotoResp.serverError
    else getPhotoCore nfd fetchResize db i.toNat

/-- Currently-playing item of the Spotify playback state (external SDK
data), only its `id` field is read. -/
structure PlaybackItem where
  id : String
  deriving DecidableEq

/-- Playback-state body returned by the Spotify SDK: `is_playing`, the
optional `item`, and the `id` fallback read on server.js line 170. -/
structure PlaybackBody where
  is_playing : Bool
  item : Option PlaybackItem
  id : String
  deriving DecidableEq

/-- Outcome of `GET /id-playing`: a 200 JSON `{ id: ... }` or the 500 of
the catch block. -/
inductive IdPlayingResp where
  | okJson (id : String)
  | serverError
  deriving DecidableEq

/-- The `GET /id-playing` handler (server.js lines 156-177).  `state` is
the outcome of the token refresh plus `getMyCurrentPlaybackState` call:
`Except.error` models a thrown error (caught as HTTP 500),
`Except.ok none` a response without a body.  Lines 162-164: missing body
or `is_playing === false` answer `{ id: "" }` with status 200. -/
def idPlayingHandler (state : Except Unit (Option PlaybackBody)) : IdPlayingResp :=
  match state with
  | Except.error _ => IdPlayingResp.serverError
  | Except.ok none => IdPlayingResp.okJson ""
  | Except.ok (some body) =>
    if body.is_playing = false then
      IdPlayingResp.okJson ""
    else
      match body.item with
      | some it => IdPlayingResp.okJson it.id
      | none => IdPlayingResp.okJson body.id

/-! Helper lemmas shared by several results. -/

/-- Bitwise or of two numbers below `2 ^ n` stays below `2 ^ n`. -/
lemma lor_lt_two_pow {x y n : Nat} (hx : x < 2 ^ n) (hy : y < 2 ^ n) :
    x ||| y < 2 ^ n :=
  Nat.bitwise_lt hx hy

/-- The packed value of a pixel whose green byte is a byte fits in
16 bits. -/
lemma rgb565Cover_lt (r g b : Nat) (hg : g < 256) : rgb565Cover r g b < 2 ^ 16 := by
  have hb : b &&& 0b11111000 ≤ 0b11111000 := Nat.and_le_right
  have hr : r &&& 0b11111100 ≤ 0b11111100 := Nat.and_le_right
  have h1 : (b &&& 0b11111000) <<< 8 < 2 ^ 16 := by
    rw [Nat.shiftLeft_eq]
    have h8 : (2 : Nat) ^ 8 = 256 := by norm_num
    rw [h8]
    omega
  have h2 : (r &&& 0b11111100) <<< 3 < 2 ^ 16 := by
    rw [Nat.shiftLeft_eq]
    have h3 : (2 : Nat) ^ 3 = 8 := by norm_num
    rw [h3]
    omega
  have h3 : g >>> 3 < 2 ^ 16 := by
    rw [Nat.shiftRight_eq_div_pow]
    have h8 : (2 : Nat) ^ 3 = 8 := by norm_num
    rw [h8]
    omega
  exact lor_lt_two_pow (lor_lt_two_pow h1 h2) h3

/-- The two packing loops are the same function of the buffer. -/
lemma pixelDataPhoto_eq_cover : pixelDataPhoto = pixelDataCover := rfl

/-- The cover grid always has 64 rows. -/
lemma pixelDataCover_length (buf : Nat → Nat) : (pixelDataCover buf).length = 64 := by
  simp [pixelDataCover]

/-- Every row of the cover grid has 64 entries. -/
lemma pixelDataCover_row_length (buf : Nat → Nat) {row : List Nat}
    (h : row ∈ pixelDataCover buf) : row.length = 64 := by
  simp only [pixelDataCover, List.mem_map] at h
  obtain ⟨y, _, rfl⟩ := h
  simp [pixelRowCover]

/-- Every entry of the cover grid is below 2 ^ 16 when the buffer holds
bytes. -/
lemma pixelDataCover_entry_lt (buf : Nat → Nat) (hbuf : ∀ i, buf i < 256)
    {row : List Nat} (hrow : row ∈ pixelDataCover buf) {v : Nat} (hv : v ∈ row) :
    v < 2 ^ 16 := by
  simp only [pixelDataCover, List.mem_map] at hrow
  obtain ⟨y, _, rfl⟩ := hrow
  simp only [pixelRowCover, List.mem_map] at hv
  obtain ⟨x, _, rfl⟩ := hv
  exact rgb565Cover_lt _ _ _ (hbuf _)

/-! Results. -/

/-- C1: for every 8-bit channel triple, the packing used by both
`/cover-64x64` and `/get-photo` computes exactly
`((B & 0b11111000) << 8) | ((R & 0b11111100) << 3) | (G >> 3)`;
in particular (255,255,255) gives 0xFFFF, (0,0,0) gives 0x0000 and
(R=0,G=0,B=255) gives 0xF800 (bits 15-11 only). -/
theorem rgb565_packing_formula :
    (∀ r g b : Nat,
      rgb565Cover r g b =
        ((b &&& 0b11111000) <<< 8) ||| ((r &&& 0b11111100) <<< 3) ||| (g >>> 3) ∧
      rgb565Photo r g b =
        ((b &&& 0b11111000) <<< 8) ||| ((r &&& 0b11111100) <<< 3) ||| (g >>> 3)) ∧
    rgb565Cover 255 255 255 = 0xFFFF ∧ rgb565Photo 255 255 255 = 0xFFFF ∧
    rgb565Cover 0 0 0 = 0x0000 ∧ rgb565Photo 0 0 0 = 0x0000 ∧
    rgb565Cover 0 0 255 = 0xF800 ∧ rgb565Photo 0 0 255 = 0xF800 := by
  refine ⟨fun r g b => ⟨rfl, rfl⟩, ?_, ?_, ?_, ?_, ?_, ?_⟩ <;> decide

/-- C2: for any raw RGBA byte buffer, both conversion loops emit exactly
64 rows of exactly 64 entries, every entry an integer in [0, 65535]. -/
theorem conversion_output_64x64_uint16 (buf : Nat → Nat)
    (hbuf : ∀ i, buf i < 256) :
    (pixelDataCover buf).length = 64 ∧
    (∀ row ∈ pixelDataCover buf, row.length = 64 ∧ ∀ v ∈ row, v ≤ 65535) ∧
    (pixelDataPhoto buf).length = 64 ∧
    (∀ row ∈ pixelDataPhoto buf, row.length = 64 ∧ ∀ v ∈ row, v ≤ 65535) := by
  have hcov : ∀ row ∈ pixelDataCover buf, row.length = 64 ∧ ∀ v ∈ row, v ≤ 65535 := by
    intro row hrow
    refine ⟨pixelDataCover_row_length buf hrow, fun v hv => ?_⟩
    have := pixelDataCover_entry_lt buf hbuf hrow hv
    omega
  refine ⟨pixelDataCover_length buf, hcov, ?_, ?_⟩
  · rw [pixelDataPhoto_eq_cover]
    exact pixelDataCover_length buf
  · rw [pixelDataPhoto_eq_cover]
    exact hcov

/-- Witness for C2 at the all-black buffer. -/
theorem conversion_output_64x64_uint16_witness :
    (∀ i : Nat, (fun _ : Nat => 0) i < 256) ∧
    ((pixelDataCover (fun _ => 0)).length = 64 ∧
    (∀ row ∈ pixelDataCover (fun _ => 0), row.length = 64 ∧ ∀ v ∈ row, v ≤ 65535) ∧
    (pixelDataPhoto (fun _ => 0)).length = 64 ∧
    (∀ row ∈ pixelDataPhoto (fun _ => 0), row.length = 64 ∧ ∀ v ∈ row, v ≤ 65535)) :=
  ⟨fun i => by show (0 : Nat) < 256; omega,
   conversion_output_64x64_uint16 (fun _ => 0) (fun i => by show (0 : Nat) < 256; omega)⟩

/-- C3: the center-square crop region has `size = min(width, height)` and
top-left corner `(floor((width - size)/2), floor((height - size)/2))`; the
region lies inside the image, and for a 100 by 50 source it is size 50,
left 25, top 0. -/
theorem center_square_crop_correct (width height : Nat) :
    cropSize width height = min width height ∧
    cropLeft width height = (width - min width height) / 2 ∧
    cropTop width height = (height - min width height) / 2 ∧
    cropLeft width height + cropSize width height ≤ width ∧
    cropTop width height + cropSize width height ≤ height ∧
    cropSize 100 50 = 50 ∧ cropLeft 100 50 = 25 ∧ cropTop 100 50 = 0 := by
  refine ⟨rfl, rfl, rfl, ?_, ?_, by decide, by decide, by decide⟩ <;>
    · simp only [cropLeft, cropTop, cropSize]
      omega

/-- C6: whenever the playback state shows no active track (no body, or
`is_playing` false), `/id-playing` answers HTTP 200 with `{ id: "" }`,
never an error. -/
theorem id_playing_not_playing_ok (state : Except Unit (Option PlaybackBody))
    (h : state = Except.ok none ∨
      ∃ body, state = Except.ok (some body) ∧ body.is_playing = false) :
    idPlayingHandler state = IdPlayingResp.okJson "" := by
  rcases h with h | ⟨body, hbody, hplay⟩
  · rw [h]
    rfl
  · rw [hbody]
    simp [idPlayingHandler, hplay]

/-- Witness for C6: the bodyless (204) playback state. -/
theorem id_playing_not_playing_ok_witness :
    idPlayingHandler (Except.ok none) = IdPlayingResp.okJson "" :=
  id_playing_not_playing_ok (Except.ok none) (Or.inl rfl)

/-- C7: the conversion is deterministic — byte-identical input buffers
produce identical grids on both endpoints.  Side-effect freedom holds by
construction: the loops read only the buffer, and their embedding is a
pure function. -/
theorem conversion_deterministic (buf1 buf2 : Nat → Nat)
    (h : ∀ i, buf1 i = buf2 i) :
    pixelDataCover buf1 = pixelDataCover buf2 ∧
    pixelDataPhoto buf1 = pixelDataPhoto buf2 := by
  have hb : buf1 = buf2 := funext h
  rw [hb]
  exact ⟨rfl, rfl⟩

/-- Witness for C7: two syntactically different descriptions of the same
buffer convert to the same grids. -/
theorem conversion_deterministic_witness :
    (∀ i : Nat, i + 0 = i) ∧
    (pixelDataCover (fun i => i + 0) = pixelDataCover (fun i => i) ∧
     pixelDataPhoto (fun i => i + 0) = pixelDataPhoto (fun i => i)) :=
  ⟨fun i => Nat.add_zero i,
   conversion_deterministic (fun i => i + 0) (fun i => i) (fun i => Nat.add_zero i)⟩

/-- C8: the grid depends only on the R, G and B bytes (offsets `4p`,
`4p+1`, `4p+2` of pixel `p`); two buffers that agree there but differ
arbitrarily in the alpha bytes give the same grid on both endpoints. -/
theorem alpha_independence (buf1 buf2 : Nat → Nat)
    (h : ∀ p, p < 4096 →
      buf1 (p * 4) = buf2 (p * 4) ∧
      buf1 (p * 4 + 1) = buf2 (p * 4 + 1) ∧
      buf1 (p * 4 + 2) = buf2 (p * 4 + 2)) :
    pixelDataCover buf1 = pixelDataCover buf2 ∧
    pixelDataPhoto buf1 = pixelDataPhoto buf2 := by
  have hcov : pixelDataCover buf1 = pixelDataCover buf2 := by
    unfold pixelDataCover
    refine List.map_congr_left fun y hy => ?_
    rw [List.mem_range] at hy
    unfold pixelRowCover
    refine List.map_congr_left fun x hx => ?_
    rw [List.mem_range] at hx
    obtain ⟨h0, h1, h2⟩ := h (y * 64 + x) (by omega)
    simp only []
    rw [h0, h1, h2]
  refine ⟨hcov, ?_⟩
  rw [pixelDataPhoto_eq_cover]
  exact hcov

/-- Witness for C8: two concrete buffers equal on the colour bytes and
different on every alpha byte. -/
theorem alpha_independence_witness :
    (∀ p, p < 4096 →
      (fun i => if i % 4 = 3 then 7 else 1) (p * 4)
        = (fun i => if i % 4 = 3 then 9 else 1) (p * 4) ∧
      (fun i => if i % 4 = 3 then 7 else 1) (p * 4 + 1)
        = (fun i => if i % 4 = 3 then 9 else 1) (p * 4 + 1) ∧
      (fun i => if i % 4 = 3 then 7 else 1) (p * 4 + 2)
        = (fun i => if i % 4 = 3 then 9 else 1) (p * 4 + 2)) ∧
    (pixelDataCover (fun i => if i % 4 = 3 then 7 else 1)
        = pixelDataCover (fun i => if i % 4 = 3 then 9 else 1) ∧
     pixelDataPhoto (fun i => if i % 4 = 3 then 7 else 1)
        = pixelDataPhoto (fun i => if i % 4 = 3 then 9 else 1)) := by
  have hagree : ∀ p, p < 4096 →
      (fun i => if i % 4 = 3 then 7 else 1) (p * 4)
        = (fun i => if i % 4 = 3 then 9 else 1) (p * 4) ∧
      (fun i => if i % 4 = 3 then 7 else 1) (p * 4 + 1)
        = (fun i => if i % 4 = 3 then 9 else 1) (p * 4 + 1) ∧
      (fun i => if i % 4 = 3 then 7 else 1) (p * 4 + 2)
        = (fun i => if i % 4 = 3 then 9 else 1) (p * 4 + 2) := by
    intro p _
    refine ⟨?_, ?_, ?_⟩ <;>
      · simp only []
        rw [if_neg (by omega), if_neg (by omega)]
  exact ⟨hagree, alpha_independence _ _ hagree⟩

/-- Inserting a record grows the length by one. -/
lemma insertDesc_length (p : PhotoRecord) (l : List PhotoRecord) :
    (insertDesc p l).length = l.length + 1 := by
  induction l with
  | nil => rfl
  | cons q qs ih =>
    unfold insertDesc
    by_cases h : q.created_at ≤ p.created_at
    · rw [if_pos h]
      simp
    · rw [if_neg h]
      simp [ih]

/-- Sorting preserves the length. -/
lemma sortDesc_length (l : List PhotoRecord) : (sortDesc l).length = l.length := by
  induction l with
  | nil => rfl
  | cons p ps ih =>
    unfold sortDesc
    rw [insertDesc_length, ih]
    simp

/-- Members of an insertion are the inserted record or old members. -/
lemma mem_insertDesc {x p : PhotoRecord} {l : List PhotoRecord}
    (h : x ∈ insertDesc p l) : x = p ∨ x ∈ l := by
  induction l with
  | nil => simpa [insertDesc] using h
  | cons q qs ih =>
    unfold insertDesc at h
    by_cases hc : q.created_at ≤ p.created_at
    · rw [if_pos hc] at h
      exact List.mem_cons.mp h
    · rw [if_neg hc] at h
      rcases List.mem_cons.mp h with h | h
      · exact Or.inr (List.mem_cons.mpr (Or.inl h))
      · rcases ih h with h | h
        · exact Or.inl h
        · exact Or.inr (List.mem_cons.mpr (Or.inr h))

/-- Insertion keeps the list sorted by `created_at` descending. -/
lemma insertDesc_pairwise {p : PhotoRecord} {l : List PhotoRecord}
    (hl : l.Pairwise (fun a b => b.created_at ≤ a.created_at)) :
    (insertDesc p l).Pairwise (fun a b => b.created_at ≤ a.created_at) := by
  induction l with
  | nil => simp [insertDesc]
  | cons q qs ih =>
    rw [List.pairwise_cons] at hl
    obtain ⟨hq, hqs⟩ := hl
    unfold insertDesc
    by_cases hc : q.created_at ≤ p.created_at
    · rw [if_pos hc]
      refine List.Pairwise.cons ?_ (List.Pairwise.cons hq hqs)
      intro x hx
      rcases List.mem_cons.mp hx with rfl | hx
      · exact hc
      · exact le_trans (hq x hx) hc
    · rw [if_neg hc]
      refine List.Pairwise.cons ?_ (ih hqs)
      intro x hx
      rcases mem_insertDesc hx with rfl | hx
      · omega
      · exact hq x hx

/-- The sort output is sorted by `created_at` descending. -/
lemma sortDesc_pairwise (l : List PhotoRecord) :
    (sortDesc l).Pairwise (fun a b => b.created_at ≤ a.created_at) := by
  induction l with
  | nil => simp [sortDesc]
  | cons p ps ih => exact insertDesc_pairwise ih

/-- C5: the `/get-photo` query returns the most recent records in
descending `created_at` order, at most 5 of them; every id at or beyond
the number of records returned is answered 404, and in particular id 5
when fewer than 6 photos exist. -/
theorem get_photo_limit_and_range (db : List PhotoRecord) :
    (queryPhotos db).length = min 5 db.length ∧
    (queryPhotos db).Pairwise (fun a b => b.created_at ≤ a.created_at) ∧
    (∀ nfd fetchResize i, (queryPhotos db).length ≤ i →
      getPhotoCore nfd fetchResize db i = GetPhotoResp.notFound) ∧
    (db.length < 6 → ∀ nfd fetchResize,
      getPhotoCore nfd fetchResize db 5 = GetPhotoResp.notFound) := by
  have hlen : (queryPhotos db).length = min 5 db.length := by
    rw [queryPhotos, List.length_take, sortDesc_length]
  have h404 : ∀ nfd fetchResize i, (queryPhotos db).length ≤ i →
      getPhotoCore nfd fetchResize db i = GetPhotoResp.notFound := by
    intro nfd fetchResize i hi
    unfold getPhotoCore
    rw [if_pos hi]
  refine ⟨hlen, ?_, h404, ?_⟩
  · rw [queryPhotos]
    exact (sortDesc_pairwise db).sublist (List.take_sublist 5 (sortDesc db))
  · intro hdb nfd fetchResize
    refine h404 nfd fetchResize 5 ?_
    omega

/-- Witness for C5: a two-photo table and id 5. -/
theorem get_photo_limit_and_range_witness :
    ([PhotoRecord.mk "a" "b" "c" 1, PhotoRecord.mk "d" "e" "f" 2] :
      List PhotoRecord).length < 6 ∧
    getPhotoCore (fun s => s) (fun _ => none)
      [PhotoRecord.mk "a" "b" "c" 1, PhotoRecord.mk "d" "e" "f" 2] 5 =
      GetPhotoResp.notFound :=
  ⟨by decide,
   (get_photo_limit_and_range
     [PhotoRecord.mk "a" "b" "c" 1, PhotoRecord.mk "d" "e" "f" 2]).2.2.2
     (by decide) (fun s => s) (fun _ => none)⟩

/-- C10: every id at or above 5 is answered 404 even when the `photos`
table holds more records, because the query is limited to 5 rows before
the range check. -/
theorem get_photo_404_at_or_above_5 (nfd : String → String)
    (fetchResize : PhotoRecord → Option (Nat → Nat))
    (db : List PhotoRecord) (i : Nat) (h5 : 5 ≤ i) :
    getPhotoCore nfd fetchResize db i = GetPhotoResp.notFound := by
  have hlen : (queryPhotos db).length ≤ 5 := by
    rw [queryPhotos, List.length_take]
    omega
  unfold getPhotoCore
  rw [if_pos (le_trans hlen h5)]

/-- Witness for C10: a table of 7 records (more than id + 1 = 6) still
answers 404 at id 5. -/
theorem get_photo_404_at_or_above_5_witness :
    (5 : Nat) ≤ 5 ∧
    (List.replicate 7 (PhotoRecord.mk "u" "t" "n" 0)).length = 7 ∧
    getPhotoCore (fun s => s) (fun _ => none)
      (List.replicate 7 (PhotoRecord.mk "u" "t" "n" 0)) 5 =
      GetPhotoResp.notFound :=
  ⟨le_refl 5, by decide,
   get_photo_404_at_or_above_5 (fun s => s) (fun _ => none)
     (List.replicate 7 (PhotoRecord.mk "u" "t" "n" 0)) 5 (le_refl 5)⟩

/-- Boolean equality test is false on distinct characters. -/
lemma char_beq_false {c d : Char} (h : c ≠ d) : (c == d) = false := by
  cases hcd : c == d
  · rfl
  · exact absurd (eq_of_beq hcd) h

/-- On a list of digits the scan takes every character. -/
lemma leadingDigitVals_all_digits {l : List Char}
    (h : ∀ c ∈ l, c.isDigit = true) :
    leadingDigitVals l = l.map (fun c => c.toNat - 48) := by
  induction l with
  | nil => rfl
  | cons c cs ih =>
    unfold leadingDigitVals
    rw [if_pos (h c (List.mem_cons_self c cs))]
    rw [ih (fun d hd => h d (List.mem_cons_of_mem c hd))]
    rfl

/-- On a non-empty all-digit string, `parseInt` returns the denoted
non-negative value. -/
lemma parseIntJS_digits {s : String} (hne : s.data ≠ [])
    (hdig : ∀ c ∈ s.data, c.isDigit = true) :
    parseIntJS s =
      some ((digitsVal (s.data.map (fun c => c.toNat - 48)) : Nat) : Int) := by
  unfold parseIntJS
  cases hs : s.data with
  | nil => exact absurd hs hne
  | cons c cs =>
    have hc : c.isDigit = true := hdig c (hs ▸ List.mem_cons_self c cs)
    have hcall : ∀ d ∈ c :: cs, d.isDigit = true := hs ▸ hdig
    have hsp : (c == ' ') = false := char_beq_false (by
      rintro rfl
      exact absurd hc (by decide))
    have hmin : (c == '-') = false := char_beq_false (by
      rintro rfl
      exact absurd hc (by decide))
    have hpl : (c == '+') = false := char_beq_false (by
      rintro rfl
      exact absurd hc (by decide))
    rw [List.dropWhile_cons, hsp]
    simp only [Bool.false_eq_true, if_false, hmin, hpl]
    rw [leadingDigitVals_all_digits hcall]
    simp

/-- The post-validation body never answers 400. -/
lemma getPhotoCore_ne_badRequest (nfd : String → String)
    (fetchResize : PhotoRecord → Option (Nat → Nat))
    (db : List PhotoRecord) (i : Nat) :
    getPhotoCore nfd fetchResize db i ≠ GetPhotoResp.badRequest := by
  unfold getPhotoCore
  by_cases h : (queryPhotos db).length ≤ i
  · rw [if_pos h]
    simp
  · rw [if_neg h]
    cases hfr : fetchResize (photoAt db i) <;> simp

/-- C4 fails as stated: "5.7" is not the notation of a non-negative
integer, yet `/get-photo` does not answer 400 on it — `parseInt` reads
the leading "5" and validation passes (the empty table then gives 404). -/
theorem get_photo_400_iff_counterexample :
    isNonNegIntString "5.7" = false ∧
    parseIntJS "5.7" = some 5 ∧
    getPhotoHandler (fun s => s) (fun _ => none) false [] "5.7" =
      GetPhotoResp.notFound := by
  refine ⟨by decide, by decide, by decide⟩

/-- C4 amended: `/get-photo` answers 400 exactly when
`parseInt(id, 10)` is NaN or negative.  Every non-negative-integer id
proceeds past validation and `id=-1`, `id=abc` get 400 — but the claimed
"only if" fails, since strings such as "5.7" that are not non-negative
integers also proceed. -/
theorem get_photo_validation_amended :
    (∀ s, isNonNegIntString s = true → ∀ nfd fetchResize dbError db,
      getPhotoHandler nfd fetchResize dbError db s ≠ GetPhotoResp.badRequest) ∧
    (∀ s nfd fetchResize dbError db,
      getPhotoHandler nfd fetchResize dbError db s = GetPhotoResp.badRequest ↔
        (parseIntJS s = none ∨ ∃ i, parseIntJS s = some i ∧ i < 0)) ∧
    (∀ nfd fetchResize dbError db,
      getPhotoHandler nfd fetchResize dbError db "-1" = GetPhotoResp.badRequest ∧
      getPhotoHandler nfd fetchResize dbError db "abc" = GetPhotoResp.badRequest) := by
  have hiff : ∀ s nfd fetchResize dbError db,
      getPhotoHandler nfd fetchResize dbError db s = GetPhotoResp.badRequest ↔
        (parseIntJS s = none ∨ ∃ i, parseIntJS s = some i ∧ i < 0) := by
    intro s nfd fetchResize dbError db
    unfold getPhotoHandler
    cases hp : parseIntJS s with
    | none => simp
    | some i =>
      dsimp only
      by_cases hi : i < 0
      · rw [if_pos hi]
        simp [hi]
      · rw [if_neg hi]
        constructor
        · intro hcontra
          by_cases hdb : dbError
          · rw [if_pos hdb] at hcontra
            exact GetPhotoResp.noConfusion hcontra
          · rw [if_neg hdb] at hcontra
            exact absurd hcontra
              (getPhotoCore_ne_badRequest nfd fetchResize db i.toNat)
        · rintro (h | ⟨j, hj, hjlt⟩)
          · exact Option.noConfusion h
          · rw [Option.some.injEq] at hj
            omega
  refine ⟨?_, hiff, ?_⟩
  · intro s hs nfd fetchResize dbError db
    rw [Ne, hiff s nfd fetchResize dbError db]
    rw [isNonNegIntString, Bool.and_eq_true, Bool.not_eq_true'] at hs
    obtain ⟨hne, hall⟩ := hs
    have hdig : ∀ c ∈ s.data, c.isDigit = true := List.all_eq_true.mp hall
    have hne' : s.data ≠ [] := by
      intro h
      rw [h] at hne
      exact absurd hne (by decide)
    rw [parseIntJS_digits hne' hdig]
    rintro (h | ⟨j, hj, hjlt⟩)
    · exact Option.noConfusion h
    · rw [Option.some.injEq] at hj
      omega
  · intro nfd fetchResize dbError db
    exact ⟨rfl, rfl⟩

/-- Witness for the amended C4 at the digit string "12". -/
theorem get_photo_validation_amended_witness :
    isNonNegIntString "12" = true ∧
    getPhotoHandler (fun s => s) (fun _ => none) false [] "12" ≠
      GetPhotoResp.badRequest :=
  ⟨by decide, get_photo_validation_amended.1 "12" (by decide)
    (fun s => s) (fun _ => none) false []⟩

/-- Characters surviving the accent strip lie outside U+0300..U+036F. -/
lemma cleanAccents_no_marks (nfd : String → String) (s : String) :
    ∀ c ∈ (cleanAccents nfd s).data, c.toNat < 0x300 ∨ 0x36F < c.toNat := by
  intro c hc
  have hc' : c ∈ ((nfd s).data.filter
      (fun c => !(decide (0x300 ≤ c.toNat) && decide (c.toNat ≤ 0x36F)))) := hc
  have hp := (List.mem_filter.mp hc').2
  simp only [Bool.not_eq_true', Bool.and_eq_false_iff,
    decide_eq_false_iff_not, not_le] at hp
  omega

/-- The stripped string is an in-order subsequence of the NFD form. -/
lemma cleanAccents_sublist (nfd : String → String) (s : String) :
    List.Sublist (cleanAccents nfd s).data (nfd s).data :=
  List.filter_sublist (nfd s).data

/-- C9: an ok `/get-photo` response carries the selected record's title
and username passed through NFD normalization with every combining mark
in U+0300..U+036F deleted: both strings come from `cleanAccents` on a
queried record, contain no code point in that range, and are in-order
subsequences of the NFD forms; stripping an NFD-decomposed accented
vowel leaves the base letter. -/
theorem get_photo_accent_stripping (nfd : String → String)
    (fetchResize : PhotoRecord → Option (Nat → Nat))
    (db : List PhotoRecord) (i : Nat) (grid : List (List Nat)) (t u : String)
    (h : getPhotoCore nfd fetchResize db i = GetPhotoResp.ok grid t u) :
    (∃ p, p ∈ queryPhotos db ∧
      t = cleanAccents nfd p.title ∧ u = cleanAccents nfd p.username ∧
      List.Sublist t.data (nfd p.title).data ∧
      List.Sublist u.data (nfd p.username).data) ∧
    (∀ c ∈ t.data, c.toNat < 0x300 ∨ 0x36F < c.toNat) ∧
    (∀ c ∈ u.data, c.toNat < 0x300 ∨ 0x36F < c.toNat) ∧
    cleanAccents (fun _ => String.mk ['e', Char.ofNat 0x301]) "é" = "e" := by
  unfold getPhotoCore at h
  by_cases hlen : (queryPhotos db).length ≤ i
  · rw [if_pos hlen] at h
    exact absurd h (by simp)
  · rw [if_neg hlen] at h
    cases hfr : fetchResize (photoAt db i) with
    | none =>
      rw [hfr] at h
      exact absurd h (by simp)
    | some buf =>
      rw [hfr] at h
      rw [GetPhotoResp.ok.injEq] at h
      obtain ⟨hg, ht, hu⟩ := h
      have hmem : photoAt db i ∈ queryPhotos db := by
        rw [photoAt, List.getD_eq_getElem _ _ (by omega)]
        exact List.getElem_mem _
      refine ⟨⟨photoAt db i, hmem, ht.symm, hu.symm, ?_, ?_⟩, ?_, ?_, by decide⟩
      · rw [← ht]
        exact cleanAccents_sublist nfd (photoAt db i).title
      · rw [← hu]
        exact cleanAccents_sublist nfd (photoAt db i).username
      · rw [← ht]
        exact cleanAccents_no_marks nfd (photoAt db i).title
      · rw [← hu]
        exact cleanAccents_no_marks nfd (photoAt db i).username

/-- Witness for C9 on a concrete one-record table. -/
theorem get_photo_accent_stripping_witness :
    getPhotoCore (fun s => s) (fun _ => some (fun _ => 0))
        [PhotoRecord.mk "a" "t" "u" 3] 0 =
      GetPhotoResp.ok (pixelDataPhoto (fun _ => 0))
        (cleanAccents (fun s => s) "t") (cleanAccents (fun s => s) "u") ∧
    ((∃ p, p ∈ queryPhotos [PhotoRecord.mk "a" "t" "u" 3] ∧
        cleanAccents (fun s => s) "t" = cleanAccents (fun s => s) p.title ∧
        cleanAccents (fun s => s) "u" = cleanAccents (fun s => s) p.username ∧
        List.Sublist (cleanAccents (fun s => s) "t").data p.title.data ∧
        List.Sublist (cleanAccents (fun s => s) "u").data p.username.data) ∧
      (∀ c ∈ (cleanAccents (fun s => s) "t").data,
        c.toNat < 0x300 ∨ 0x36F < c.toNat) ∧
      (∀ c ∈ (cleanAccents (fun s => s) "u").data,
        c.toNat < 0x300 ∨ 0x36F < c.toNat) ∧
      cleanAccents (fun _ => String.mk ['e', Char.ofNat 0x301]) "é" = "e") :=
  ⟨rfl, get_photo_accent_stripping (fun s => s) (fun _ => some (fun _ => 0))
    [PhotoRecord.mk "a" "t" "u" 3] 0 (pixelDataPhoto (fun _ => 0))
    (cleanAccents (fun s => s) "t") (cleanAccents (fun s => s) "u") rfl⟩

end MyAlbum
